import Mathlib

/-!
Verification development for the project-management module
(src/project-management/project-management.ts).

The module's loosely-typed server payloads are modelled by a JSON-like
value type with JavaScript truthiness and property-access semantics.
Stateful code (the paginated async iterator) is modelled by explicit
state passing; fallible code returns Except.
-/

set_option maxRecDepth 4096

/-- JavaScript-like values as delivered by the request handler. Numbers are
modelled as integers; no claim depends on float specifics. An absent object
property reads as undefined, matching JavaScript. -/
inductive JsValue : Type where
  | null : JsValue
  | undefined : JsValue
  | bool : Bool → JsValue
  | num : Int → JsValue
  | str : String → JsValue
  | arr : List JsValue → JsValue
  | obj : List (String × JsValue) → JsValue

/-- Lookup of a property in an object's field list; an absent key reads as
undefined, as in JavaScript. -/
def lookupField : List (String × JsValue) → String → JsValue
  | [], _ => JsValue.undefined
  | (k, v) :: rest, key => if k = key then v else lookupField rest key

/-- Property read v.k for the field names this module uses. Reading a
property of a non-object non-null value yields undefined (JavaScript
boxes primitives); reading from null or undefined is a TypeError, which
is modelled separately via JsValue.accessible. -/
def JsValue.get : JsValue → String → JsValue
  | JsValue.obj fs, key => lookupField fs key
  | _, _ => JsValue.undefined

/-- Whether a property read on this value succeeds at all: in JavaScript,
property access on null or undefined throws a TypeError; every other value
(including primitives and arrays) yields a value (possibly undefined). -/
def JsValue.accessible : JsValue → Bool
  | JsValue.null => false
  | JsValue.undefined => false
  | _ => true

/-- The JavaScript in-operator: true when the object has the property. -/
def JsValue.hasField : JsValue → String → Bool
  | JsValue.obj fs, key => fs.any (fun p => p.1 = key)
  | _, _ => false

/-- JavaScript truthiness of a value. -/
def JsValue.truthy : JsValue → Bool
  | JsValue.null => false
  | JsValue.undefined => false
  | JsValue.bool b => b
  | JsValue.num n => n != 0
  | JsValue.str s => s != ""
  | JsValue.arr _ => true
  | JsValue.obj _ => true

/-- Underlying string of a string value; used only under an
isNonEmptyString guard, so the default is never observed. -/
def JsValue.asString : JsValue → String
  | JsValue.str s => s
  | _ => ""

/-- Modelled from the spec: validator.isNonEmptyString (utils/validator is
not under src/): the value is a string and not empty. -/
def isNonEmptyString (v : JsValue) : Bool :=
  match v with
  | JsValue.str s => s != ""
  | _ => false

/-- Modelled from the spec: validator.isNonNullObject (utils/validator is
not under src/): the value is a non-null object. By JavaScript typeof
semantics arrays are objects. -/
def isNonNullObject (v : JsValue) : Bool :=
  match v with
  | JsValue.obj _ => true
  | JsValue.arr _ => true
  | _ => false

/-- Modelled from the spec: validator.isArray (utils/validator is not
under src/): the value is an array. -/
def isArray (v : JsValue) : Bool :=
  match v with
  | JsValue.arr _ => true
  | _ => false

/-- Errors raised by this layer. The first three correspond to
FirebaseProjectManagementError codes invalid-argument, invalid-project-id
and invalid-server-response (the latter carries the raw response for
diagnostics, mirroring assertServerResponse, modelled from the spec since
project-management-api-request.ts is not under src/). typeError models the
raw JavaScript TypeError thrown by a property access on null/undefined,
which is not a classified error of this layer. -/
inductive PMError : Type where
  | invalidArgument : String → PMError
  | invalidProjectId : String → PMError
  | invalidServerResponse : String → JsValue → PMError
  | typeError : String → PMError

/-- Message of the TypeError raised by property access on null/undefined. -/
def typeErrorMsg : String := "Cannot read properties of null or undefined"

/-- Message of assertListAppsResponseData for a non-object response. -/
def nonNullObjMsg (callerName : String) : String :=
  "responseData of " ++ callerName ++ " must be a non-null object."

/-- Message of assertListAppsResponseData for a truthy non-array apps field. -/
def appsArrayMsg (callerName : String) : String :=
  "\"apps\" field must be present in the " ++ callerName ++ " response data."

/-- Message of the per-entry appId assertion in list responses. -/
def appsAppIdMsg (callerName : String) : String :=
  "\"apps[].appId\" field must be present in the " ++ callerName ++ " response data."

/-- Message of the per-entry platform assertion in the listAppMetadata response. -/
def appsPlatformMsg (callerName : String) : String :=
  "\"apps[].platform\" field must be present in the " ++ callerName ++ " response data."

/-- Embedding of ProjectManagement.assertListAppsResponseData: the response
must be a non-null object, and when its apps field is truthy it must be an
array. -/
def assertListAppsResponseData (rd : JsValue) (callerName : String) : Except PMError Unit :=
  if isNonNullObject rd = false then
    Except.error (PMError.invalidServerResponse (nonNullObjMsg callerName) rd)
  else if JsValue.truthy (rd.get "apps") && !(isArray (rd.get "apps")) then
    Except.error (PMError.invalidServerResponse (appsArrayMsg callerName) rd)
  else
    Except.ok ()

/-- Modelled from the spec: the AppPlatform enum from app-metadata.ts (not
under src/), with members PLATFORM_UNKNOWN, ANDROID and IOS. -/
inductive AppPlatform : Type where
  | PLATFORM_UNKNOWN : AppPlatform
  | ANDROID : AppPlatform
  | IOS : AppPlatform
deriving DecidableEq

/-- Enum member lookup (AppPlatform as any)[s]: some member when s names
one, none (undefined in JavaScript) otherwise. -/
def lookupAppPlatform (s : String) : Option AppPlatform :=
  if s = "PLATFORM_UNKNOWN" then some AppPlatform.PLATFORM_UNKNOWN
  else if s = "ANDROID" then some AppPlatform.ANDROID
  else if s = "IOS" then some AppPlatform.IOS
  else none

/-- AppMetadata as built by transformResponseToAppMetadata. resourceName is
copied from the raw entry's name field without validation, so it keeps the
JsValue type (it may be undefined); displayName is copied only when truthy,
also unvalidated. -/
structure AppMetadata : Type where
  appId : String
  platform : AppPlatform
  projectId : String
  resourceName : JsValue
  displayName : Option JsValue

/-- Success value of the per-entry mapping in transformResponseToAppMetadata:
the object literal built at project-management.ts lines 190-198. The enum
lookup falls back to PLATFORM_UNKNOWN when it yields undefined (the
JavaScript or-default), since every enum member is a truthy string. -/
def mkAppMetadata (projectId : String) (e : JsValue) : AppMetadata :=
  { appId := JsValue.asString (e.get "appId")
    platform := (lookupAppPlatform (JsValue.asString (e.get "platform"))).getD
      AppPlatform.PLATFORM_UNKNOWN
    projectId := projectId
    resourceName := e.get "name"
    displayName := if JsValue.truthy (e.get "displayName") then some (e.get "displayName") else none }

/-- Per-entry step of transformResponseToAppMetadata's map callback: the
appId and platform assertions run first (a property read on a null or
undefined entry throws a TypeError before any assertion), then the
metadata literal is built. -/
def transformAppEntry (projectId : String) (rd : JsValue) (e : JsValue) :
    Except PMError AppMetadata :=
  if JsValue.accessible e = false then
    Except.error (PMError.typeError typeErrorMsg)
  else if isNonEmptyString (e.get "appId") = false then
    Except.error (PMError.invalidServerResponse (appsAppIdMsg "listAppMetadata()") rd)
  else if isNonEmptyString (e.get "platform") = false then
    Except.error (PMError.invalidServerResponse (appsPlatformMsg "listAppMetadata()") rd)
  else
    Except.ok (mkAppMetadata projectId e)

/-- Sequential map over the entries, stopping at the first throwing entry,
as Array.prototype.map does when the callback throws. -/
def transformEntries (projectId : String) (rd : JsValue) :
    List JsValue → Except PMError (List AppMetadata)
  | [] => Except.ok []
  | e :: rest =>
    match transformAppEntry projectId rd e with
    | Except.error err => Except.error err
    | Except.ok m =>
      match transformEntries projectId rd rest with
      | Except.error err => Except.error err
      | Except.ok ms => Except.ok (m :: ms)

/-- Embedding of ProjectManagement.transformResponseToAppMetadata: validate
the response shape, return [] when the apps field is falsy, otherwise map
each entry. The truthy non-array case cannot be reached past the shape
assertion; it re-raises the same error for definiteness. -/
def transformResponseToAppMetadata (projectId : String) (rd : JsValue) :
    Except PMError (List AppMetadata) :=
  match assertListAppsResponseData rd "listAppMetadata()" with
  | Except.error err => Except.error err
  | Except.ok _ =>
    if JsValue.truthy (rd.get "apps") = false then
      Except.ok []
    else
      match rd.get "apps" with
      | JsValue.arr xs => transformEntries projectId rd xs
      | _ => Except.error (PMError.invalidServerResponse (appsArrayMsg "listAppMetadata()") rd)

/-- State of one iteration instance of iteratePlatformApps: the fetching
flag (initially true) and the stored page token (initially undefined, the
value of an uninitialized JavaScript variable). -/
structure IterState : Type where
  fetching : Bool
  nextPageToken : JsValue

/-- Initial state of a fresh iteration instance. -/
def initIterState : IterState :=
  { fetching := true, nextPageToken := JsValue.undefined }

/-- Outcome of one next() call: the iterator result (done flag and batch of
constructed apps, identified by their appIds since AndroidApp and IosApp
only wrap the appId) or the propagated error, the iterator state after the
call, and how many request-handler invocations the call made. -/
structure StepOut : Type where
  result : Except PMError (Bool × List String)
  state : IterState
  calls : Nat

/-- Per-entry step of iteratePlatformApps's map callback: a property read
on a null or undefined entry throws a TypeError, then the appId assertion
runs, then the app handle is built from the appId alone. -/
def iterEntryApp (rd : JsValue) (callerName : String) (e : JsValue) : Except PMError String :=
  if JsValue.accessible e = false then
    Except.error (PMError.typeError typeErrorMsg)
  else if isNonEmptyString (e.get "appId") = false then
    Except.error (PMError.invalidServerResponse (appsAppIdMsg callerName) rd)
  else
    Except.ok (JsValue.asString (e.get "appId"))

/-- Sequential map over the entries of a list response, stopping at the
first throwing entry, as Array.prototype.map does. -/
def listEntriesApps (rd : JsValue) (callerName : String) :
    List JsValue → Except PMError (List String)
  | [] => Except.ok []
  | e :: rest =>
    match iterEntryApp rd callerName e with
    | Except.error err => Except.error err
    | Except.ok a =>
      match listEntriesApps rd callerName rest with
      | Except.error err => Except.error err
      | Except.ok as => Except.ok (a :: as)

/-- Entries the iterator maps over: (responseData.apps || []) after the
shape assertion, under which a truthy apps field is an array, so any
non-array apps field contributes the empty list. -/
def pageEntries (page : JsValue) : List JsValue :=
  match page.get "apps" with
  | JsValue.arr xs => xs
  | _ => []

/-- Embedding of one next() call of the iterator returned by
iteratePlatformApps (the request handler is abstracted as a function from
the sent page token to the parsed response). When fetching is false the
call returns done with an empty batch and makes no request. Otherwise it
requests a page with the stored token, asserts the response shape (on
failure the state is untouched, since the token assignment comes after the
assertion), stores the new token, clears fetching when the token is falsy,
and then maps the entries (on a per-entry failure the state has already
been advanced). -/
def iterNext (handler : JsValue → JsValue) (callerName : String) (st : IterState) : StepOut :=
  if st.fetching = false then
    { result := Except.ok (true, []), state := st, calls := 0 }
  else
    let rd := handler st.nextPageToken
    match assertListAppsResponseData rd callerName with
    | Except.error err => { result := Except.error err, state := st, calls := 1 }
    | Except.ok _ =>
      let tok := rd.get "nextPageToken"
      let newSt : IterState := { fetching := JsValue.truthy tok, nextPageToken := tok }
      match listEntriesApps rd callerName (pageEntries rd) with
      | Except.error err => { result := Except.error err, state := newSt, calls := 1 }
      | Except.ok apps => { result := Except.ok (false, apps), state := newSt, calls := 1 }

/-- Run n successive next() calls, collecting each pull's done flag and
batch, the final state, and the total number of request-handler
invocations; stops at the first error. -/
def iterRun (handler : JsValue → JsValue) (callerName : String) (st : IterState) :
    Nat → Except PMError (List (Bool × List String) × IterState × Nat)
  | 0 => Except.ok ([], st, 0)
  | Nat.succ n =>
    let out := iterNext handler callerName st
    match out.result with
    | Except.error err => Except.error err
    | Except.ok pull =>
      match iterRun handler callerName out.state n with
      | Except.error err => Except.error err
      | Except.ok (pulls, stF, c) => Except.ok (pull :: pulls, stF, out.calls + c)

/-- Continuation token of a page response. -/
def pageTok (page : JsValue) : JsValue := page.get "nextPageToken"

/-- Validity of one entry for the iterator's per-entry assertion: the entry
supports property reads and its appId is a non-empty string. -/
def entryValidForIter (e : JsValue) : Bool :=
  JsValue.accessible e && isNonEmptyString (e.get "appId")

/-- A page response on which a pull succeeds: a non-null object whose apps
field, when truthy, is an array, and whose entries all carry non-empty
string appIds. -/
def pageValid (page : JsValue) : Bool :=
  isNonNullObject page
    && (!(JsValue.truthy (page.get "apps")) || isArray (page.get "apps"))
    && (pageEntries page).all entryValidForIter

/-- Batch of appIds a valid page contributes. -/
def pageApps (page : JsValue) : List String :=
  (pageEntries page).map (fun e => JsValue.asString (e.get "appId"))

/-- ServesFrom handler tok pages: starting from request token tok, the
handler serves exactly the page sequence pages, each later request using
the previous response's nextPageToken, every page before the last carrying
a truthy continuation token and the last carrying none. -/
inductive ServesFrom (handler : JsValue → JsValue) : JsValue → List JsValue → Prop where
  | last : ∀ tok page, handler tok = page → JsValue.truthy (pageTok page) = false →
      ServesFrom handler tok [page]
  | cons : ∀ tok page rest, handler tok = page → JsValue.truthy (pageTok page) = true →
      ServesFrom handler (pageTok page) rest → ServesFrom handler tok (page :: rest)

/-- Successfully constructed ProjectManagement facade: the stored project
ID and derived resource name. -/
structure ProjectManagement : Type where
  projectId : String
  resourceName : String

/-- Message of the invalid-argument error of the ProjectManagement
constructor. -/
def invalidAppMsg : String :=
  "First argument passed to admin.projectManagement() must be a valid Firebase app instance."

/-- Message of the invalid-project-id error of the ProjectManagement
constructor. -/
def noProjectIdMsg : String :=
  "Failed to determine project ID. Initialize the SDK with service account credentials, or set project ID as an app option. Alternatively, set the GOOGLE_CLOUD_PROJECT environment variable."

/-- Embedding of the ProjectManagement constructor. The project-ID
resolution (utils.getProjectId, not under src/) is abstracted as a
function from the app value to the resolved value. The constructor is
pure: it performs no network call (the request-handler collaborator is
merely stored). -/
def mkProjectManagement (getProjectId : JsValue → JsValue) (app : JsValue) :
    Except PMError ProjectManagement :=
  if !(isNonNullObject app && JsValue.hasField app "options") then
    Except.error (PMError.invalidArgument invalidAppMsg)
  else
    let pid := getProjectId app
    if !(isNonEmptyString pid) then
      Except.error (PMError.invalidProjectId noProjectIdMsg)
    else
      Except.ok { projectId := JsValue.asString pid
                  resourceName := "projects/" ++ JsValue.asString pid }

/-- A SHA certificate handle: the hash and the server-assigned resource
name, absent until the certificate was fetched from the server. -/
structure ShaCertificate : Type where
  shaHash : String
  resourceName : Option String

/-- Message of the invalid-argument error of deleteShaCertificate, as
asserted by the integration test in src/. -/
def certNoResourceNameMsg : String :=
  "Specified certificate does not include a resourceName."

/-- Outcome of a remote operation together with the number of
request-handler invocations it made. -/
structure RemoteCall : Type where
  result : Except PMError Unit
  calls : Nat

/-- Modelled from the spec: AndroidApp.deleteShaCertificate (android-app.ts
is not under src/; only its integration test is). Per the spec, when the
certificate's resourceName is empty or absent the call fails immediately
with an invalid-argument error stating the certificate lacks a
resourceName, making no network call; otherwise it issues the delete
request. -/
def deleteShaCertificate (cert : ShaCertificate) : RemoteCall :=
  match cert.resourceName with
  | none => { result := Except.error (PMError.invalidArgument certNoResourceNameMsg), calls := 0 }
  | some r =>
    if r = "" then
      { result := Except.error (PMError.invalidArgument certNoResourceNameMsg), calls := 0 }
    else
      { result := Except.ok (), calls := 1 }

/-- Message of the non-null-object assertion on a create-app response. -/
def createNonNullMsg (callerName : String) : String :=
  "responseData of " ++ callerName ++ " must be a non-null object."

/-- Message of the appId assertion on a create-app response. -/
def createAppIdMsg (callerName : String) : String :=
  "\"responseData.appId\" field must be present in the " ++ callerName ++ " response data."

/-- Embedding of the response processing of createAndroidApp and
createIosApp (the then-callback at project-management.ts lines 126-137 and
145-156): the response must be a non-null object with a non-empty string
appId, and the returned handle carries exactly that appId. The callback
runs only after the round trip resolves; the raw response is carried on
failure. -/
def createAppFromResponse (callerName : String) (rd : JsValue) : Except PMError String :=
  if isNonNullObject rd = false then
    Except.error (PMError.invalidServerResponse (createNonNullMsg callerName) rd)
  else if isNonEmptyString (rd.get "appId") = false then
    Except.error (PMError.invalidServerResponse (createAppIdMsg callerName) rd)
  else
    Except.ok (JsValue.asString (rd.get "appId"))

/-- Response processing of createAndroidApp. -/
def createAndroidAppResponse : JsValue → Except PMError String :=
  createAppFromResponse "createAndroidApp()"

/-- Response processing of createIosApp. -/
def createIosAppResponse : JsValue → Except PMError String :=
  createAppFromResponse "createIosApp()"

/-- Validity of one entry for listAppMetadata's per-entry assertions. -/
def metadataEntryValid (e : JsValue) : Bool :=
  JsValue.accessible e && isNonEmptyString (e.get "appId")
    && isNonEmptyString (e.get "platform")

/-- Page 1 of the pagination example: one Android app and a continuation
token. -/
def examplePage1 : JsValue :=
  JsValue.obj [("apps", JsValue.arr [JsValue.obj [("appId", JsValue.str "a1")]]),
               ("nextPageToken", JsValue.str "tok")]

/-- Page 2 of the pagination example: one app and no continuation token. -/
def examplePage2 : JsValue :=
  JsValue.obj [("apps", JsValue.arr [JsValue.obj [("appId", JsValue.str "a2")]])]

/-- Handler serving the two example pages keyed by the sent page token. -/
def exampleHandler : JsValue → JsValue
  | JsValue.undefined => examplePage1
  | JsValue.str "tok" => examplePage2
  | _ => JsValue.null

/-- Response page whose single entry lacks an appId. -/
def exampleBadPage : JsValue :=
  JsValue.obj [("apps", JsValue.arr [JsValue.obj []])]

/-- Project-ID resolver used by concrete checks: reads options.projectId. -/
def exampleGetProjectId (app : JsValue) : JsValue :=
  (app.get "options").get "projectId"

/-- App value with a resolvable project ID. -/
def exampleGoodApp : JsValue :=
  JsValue.obj [("options", JsValue.obj [("projectId", JsValue.str "demo")])]

/-- App value whose options carry no project ID. -/
def exampleNoIdApp : JsValue :=
  JsValue.obj [("options", JsValue.obj [])]

/-- Entry with an unrecognized platform string. -/
def exampleWebEntry : JsValue :=
  JsValue.obj [("appId", JsValue.str "w1"), ("platform", JsValue.str "WEB")]

/-- Response whose single entry carries an unrecognized platform. -/
def exampleWebResponse : JsValue :=
  JsValue.obj [("apps", JsValue.arr [exampleWebEntry])]

/-- Entry with valid appId and platform but no name field. -/
def exampleNoNameEntry : JsValue :=
  JsValue.obj [("appId", JsValue.str "a9"), ("platform", JsValue.str "ANDROID")]

/-- Response whose single valid entry has no name field. -/
def exampleNoNameResponse : JsValue :=
  JsValue.obj [("apps", JsValue.arr [exampleNoNameEntry])]

/-- Whether an error is a classified invalid-server-response error. -/
def isInvalidServerResponseError : PMError → Bool
  | PMError.invalidServerResponse _ _ => true
  | _ => false

theorem lookupField_not_mem (fs : List (String × JsValue)) (k : String)
    (h : fs.any (fun p => p.1 = k) = false) : lookupField fs k = JsValue.undefined := by
  induction fs with
  | nil => rfl
  | cons p rest ih =>
    obtain ⟨k1, v1⟩ := p
    simp only [List.any_cons, Bool.or_eq_false_iff] at h
    have hk : ¬(k1 = k) := by simpa using h.1
    simp [lookupField, hk, ih h.2]

theorem hasField_false_get (v : JsValue) (k : String)
    (h : JsValue.hasField v k = false) : v.get k = JsValue.undefined := by
  cases v with
  | obj fs => exact lookupField_not_mem fs k h
  | null => rfl
  | undefined => rfl
  | bool b => rfl
  | num n => rfl
  | str s => rfl
  | arr xs => rfl

theorem assertList_ok (rd : JsValue) (cn : String)
    (h1 : isNonNullObject rd = true)
    (h2 : (!(JsValue.truthy (rd.get "apps")) || isArray (rd.get "apps")) = true) :
    assertListAppsResponseData rd cn = Except.ok () := by
  unfold assertListAppsResponseData
  rw [h1]
  simp only [Bool.or_eq_true, Bool.not_eq_true'] at h2
  rcases h2 with h2 | h2 <;> simp [h2]

theorem listEntriesApps_all_valid (rd : JsValue) (cn : String) (xs : List JsValue)
    (h : xs.all entryValidForIter = true) :
    listEntriesApps rd cn xs = Except.ok (xs.map (fun e => JsValue.asString (e.get "appId"))) := by
  induction xs with
  | nil => rfl
  | cons e rest ih =>
    simp only [List.all_cons, Bool.and_eq_true] at h
    have he := h.1
    unfold entryValidForIter at he
    simp only [Bool.and_eq_true] at he
    simp [listEntriesApps, iterEntryApp, he.1, he.2, ih h.2]

theorem transformEntries_all_valid (pid : String) (rd : JsValue) (xs : List JsValue)
    (h : xs.all metadataEntryValid = true) :
    transformEntries pid rd xs = Except.ok (xs.map (mkAppMetadata pid)) := by
  induction xs with
  | nil => rfl
  | cons e rest ih =>
    simp only [List.all_cons, Bool.and_eq_true] at h
    have he := h.1
    unfold metadataEntryValid at he
    simp only [Bool.and_eq_true] at he
    simp [transformEntries, transformAppEntry, he.1.1, he.1.2, he.2, ih h.2]

theorem iterNext_done (handler : JsValue → JsValue) (cn : String) (st : IterState)
    (h : st.fetching = false) :
    iterNext handler cn st = { result := Except.ok (true, []), state := st, calls := 0 } := by
  simp [iterNext, h]

theorem iterRun_exhausted (handler : JsValue → JsValue) (cn : String) (st : IterState)
    (h : st.fetching = false) (n : Nat) :
    iterRun handler cn st n = Except.ok (List.replicate n (true, []), st, 0) := by
  induction n with
  | zero => rfl
  | succ n ih => simp [iterRun, iterNext_done handler cn st h, ih, List.replicate_succ]

theorem iterNext_valid (handler : JsValue → JsValue) (cn : String) (st : IterState)
    (hf : st.fetching = true) (hv : pageValid (handler st.nextPageToken) = true) :
    iterNext handler cn st =
      { result := Except.ok (false, pageApps (handler st.nextPageToken))
        state := { fetching := JsValue.truthy (pageTok (handler st.nextPageToken))
                   nextPageToken := pageTok (handler st.nextPageToken) }
        calls := 1 } := by
  unfold pageValid at hv
  simp only [Bool.and_eq_true] at hv
  unfold iterNext
  rw [hf]
  simp only [Bool.true_eq_false, if_false]
  rw [assertList_ok (handler st.nextPageToken) cn hv.1.1 hv.1.2]
  rw [listEntriesApps_all_valid (handler st.nextPageToken) cn _ hv.2]
  rfl

theorem transform_arr (pid : String) (rd : JsValue) (xs : List JsValue)
    (hobj : isNonNullObject rd = true) (happs : rd.get "apps" = JsValue.arr xs) :
    transformResponseToAppMetadata pid rd = transformEntries pid rd xs := by
  unfold transformResponseToAppMetadata
  rw [assertList_ok rd "listAppMetadata()" hobj (by rw [happs]; simp [isArray])]
  rw [happs]
  simp [JsValue.truthy]

theorem transform_no_apps (pid : String) (rd : JsValue)
    (hobj : isNonNullObject rd = true)
    (hfa : JsValue.truthy (rd.get "apps") = false) :
    transformResponseToAppMetadata pid rd = Except.ok [] := by
  unfold transformResponseToAppMetadata
  rw [assertList_ok rd "listAppMetadata()" hobj (by simp [hfa])]
  simp [hfa]

theorem listEntriesApps_invalid (rd : JsValue) (cn : String) (xs : List JsValue)
    (h : xs.all entryValidForIter = false) :
    ∃ err, listEntriesApps rd cn xs = Except.error err := by
  induction xs with
  | nil => simp at h
  | cons e rest ih =>
    by_cases he : entryValidForIter e = true
    · have hr : rest.all entryValidForIter = false := by
        simpa [List.all_cons, he] using h
      obtain ⟨err, herr⟩ := ih hr
      have he2 := he
      unfold entryValidForIter at he2
      simp only [Bool.and_eq_true] at he2
      exact ⟨err, by simp [listEntriesApps, iterEntryApp, he2.1, he2.2, herr]⟩
    · rw [Bool.not_eq_true] at he
      unfold entryValidForIter at he
      by_cases ha : JsValue.accessible e = true
      · have hid : isNonEmptyString (e.get "appId") = false := by
          simpa [ha] using he
        exact ⟨PMError.invalidServerResponse (appsAppIdMsg cn) rd,
          by simp [listEntriesApps, iterEntryApp, ha, hid]⟩
      · rw [Bool.not_eq_true] at ha
        exact ⟨PMError.typeError typeErrorMsg,
          by simp [listEntriesApps, iterEntryApp, ha]⟩

theorem transformEntries_invalid (pid : String) (rd : JsValue) (xs : List JsValue)
    (hacc : xs.all JsValue.accessible = true)
    (h : xs.all metadataEntryValid = false) :
    ∃ m, transformEntries pid rd xs = Except.error (PMError.invalidServerResponse m rd)
      ∧ (m = appsAppIdMsg "listAppMetadata()" ∨ m = appsPlatformMsg "listAppMetadata()") := by
  induction xs with
  | nil => simp at h
  | cons e rest ih =>
    have hae : JsValue.accessible e = true := by
      simp only [List.all_cons, Bool.and_eq_true] at hacc
      exact hacc.1
    have har : rest.all JsValue.accessible = true := by
      simp only [List.all_cons, Bool.and_eq_true] at hacc
      exact hacc.2
    by_cases hid : isNonEmptyString (e.get "appId") = true
    · by_cases hpl : isNonEmptyString (e.get "platform") = true
      · have hev : metadataEntryValid e = true := by
          simp [metadataEntryValid, hae, hid, hpl]
        have hr : rest.all metadataEntryValid = false := by
          simpa [List.all_cons, hev] using h
        obtain ⟨m, hm, hd⟩ := ih har hr
        exact ⟨m, by simp [transformEntries, transformAppEntry, hae, hid, hpl, hm], hd⟩
      · rw [Bool.not_eq_true] at hpl
        exact ⟨_, by simp [transformEntries, transformAppEntry, hae, hid, hpl], Or.inr rfl⟩
    · rw [Bool.not_eq_true] at hid
      exact ⟨_, by simp [transformEntries, transformAppEntry, hae, hid], Or.inl rfl⟩

theorem iterRun_chain (handler : JsValue → JsValue) (cn : String) (tok : JsValue)
    (pages : List JsValue) (h : ServesFrom handler tok pages)
    (hv : ∀ p ∈ pages, pageValid p = true) :
    ∃ stF, iterRun handler cn { fetching := true, nextPageToken := tok } pages.length
        = Except.ok (pages.map (fun p => (false, pageApps p)), stF, pages.length)
      ∧ stF.fetching = false := by
  induction h with
  | last tok page hh ht =>
    have hp : pageValid (handler ({ fetching := true, nextPageToken := tok } : IterState).nextPageToken) = true := by
      simpa [hh] using hv page (by simp)
    have hstep := iterNext_valid handler cn { fetching := true, nextPageToken := tok } rfl hp
    rw [show ({ fetching := true, nextPageToken := tok } : IterState).nextPageToken = tok from rfl, hh] at hstep
    refine ⟨{ fetching := JsValue.truthy (pageTok page), nextPageToken := pageTok page }, ?_, ht⟩
    simp [iterRun, hstep]
  | cons tok page rest hh ht htl ih =>
    have hp : pageValid (handler ({ fetching := true, nextPageToken := tok } : IterState).nextPageToken) = true := by
      simpa [hh] using hv page (by simp)
    have hstep := iterNext_valid handler cn { fetching := true, nextPageToken := tok } rfl hp
    rw [show ({ fetching := true, nextPageToken := tok } : IterState).nextPageToken = tok from rfl, hh] at hstep
    obtain ⟨stF, hrun, hfF⟩ := ih (fun p hp2 => hv p (List.mem_cons_of_mem _ hp2))
    refine ⟨stF, ?_, hfF⟩
    have hlen : (page :: rest).length = rest.length + 1 := rfl
    rw [hlen]
    simp only [iterRun, hstep, ht]
    rw [ht] at hstep
    simp [iterRun, hstep, hrun, Nat.add_comm]

/-- C1: for every iteration created by iterateAndroidApps() or iterateIosApps()
(both share iteratePlatformApps, abstracted over the handler and caller name)
and every server behaviour serving a chain of valid pages (first request with
no page token, each later request with the previous response's nextPageToken,
every page before the last with a truthy token and the last with none), running
one pull per page succeeds and yields exactly each page's entries in order —
hence the concatenation of all batches is the in-order concatenation of all
pages' entries, with no duplicates and no omissions — and the iteration is
exhausted exactly at the page with no nextPageToken: the following pull reports
done with an empty batch and no further network call. -/
theorem iterate_yields_all_pages (handler : JsValue → JsValue) (cn : String)
    (pages : List JsValue)
    (hchain : ServesFrom handler JsValue.undefined pages)
    (hvalid : ∀ p ∈ pages, pageValid p = true) :
    ∃ stF, iterRun handler cn initIterState pages.length
        = Except.ok (pages.map (fun p => (false, pageApps p)), stF, pages.length)
      ∧ stF.fetching = false
      ∧ iterNext handler cn stF
          = { result := Except.ok (true, []), state := stF, calls := 0 } := by
  obtain ⟨stF, hrun, hfF⟩ := iterRun_chain handler cn JsValue.undefined pages hchain hvalid
  exact ⟨stF, hrun, hfF, iterNext_done handler cn stF hfF⟩

/-- Witness for C1 at the spec's two-page example: the pulls yield batch
[a1] then batch [a2], then the stream completes. -/
theorem iterate_yields_all_pages_witness :
    ∃ stF, iterRun exampleHandler "iterateAndroidApps()" initIterState 2
        = Except.ok ([(false, ["a1"]), (false, ["a2"])], stF, 2)
      ∧ stF.fetching = false
      ∧ iterNext exampleHandler "iterateAndroidApps()" stF
          = { result := Except.ok (true, []), state := stF, calls := 0 } := by
  have h := iterate_yields_all_pages exampleHandler "iterateAndroidApps()"
    [examplePage1, examplePage2]
    (ServesFrom.cons JsValue.undefined examplePage1 [examplePage2] rfl (by decide)
      (ServesFrom.last (pageTok examplePage1) examplePage2 rfl (by decide)))
    (by decide)
  exact h

/-- C2: an iteration instance whose fetching flag is cleared (the EXHAUSTED
state, entered when a pull processed a response without a truthy
nextPageToken) answers every subsequent next() call with done and an empty
batch, never invoking the request handler again: one pull returns done, the
empty batch, the unchanged state and zero calls, and n further pulls return n
empty done pulls with zero total calls. -/
theorem exhausted_pull_idempotent (handler : JsValue → JsValue) (cn : String)
    (st : IterState) (n : Nat) (h : st.fetching = false) :
    iterNext handler cn st = { result := Except.ok (true, []), state := st, calls := 0 }
    ∧ iterRun handler cn st n = Except.ok (List.replicate n (true, []), st, 0) :=
  ⟨iterNext_done handler cn st h, iterRun_exhausted handler cn st h n⟩

/-- Witness for C2: three pulls on an exhausted instance yield three empty
done results and zero handler calls. -/
theorem exhausted_pull_idempotent_witness :
    iterNext (fun _ => JsValue.null) "iterateIosApps()"
        { fetching := false, nextPageToken := JsValue.str "tok" }
      = { result := Except.ok (true, [])
          state := { fetching := false, nextPageToken := JsValue.str "tok" }
          calls := 0 }
    ∧ iterRun (fun _ => JsValue.null) "iterateIosApps()"
        { fetching := false, nextPageToken := JsValue.str "tok" } 3
      = Except.ok (List.replicate 3 (true, []),
          { fetching := false, nextPageToken := JsValue.str "tok" }, 0) :=
  exhausted_pull_idempotent (fun _ => JsValue.null) "iterateIosApps()"
    { fetching := false, nextPageToken := JsValue.str "tok" } 3 rfl

/-- C3: the ProjectManagement constructor fails with invalid-argument when its
argument is not a non-null object exposing an options field; otherwise, when
no non-empty project ID resolves from it, it fails with invalid-project-id;
otherwise it succeeds storing the resolved projectId and resourceName =
projects/ concatenated with the projectId. The embedding is pure: the
constructor makes no network call in any case, so both failures are raised
synchronously before any I/O. -/
theorem mkProjectManagement_spec (g : JsValue → JsValue) (app : JsValue) :
    ((isNonNullObject app && JsValue.hasField app "options") = false →
      mkProjectManagement g app = Except.error (PMError.invalidArgument invalidAppMsg))
    ∧ ((isNonNullObject app && JsValue.hasField app "options") = true →
        (isNonEmptyString (g app) = false →
          mkProjectManagement g app = Except.error (PMError.invalidProjectId noProjectIdMsg))
        ∧ ∀ s, g app = JsValue.str s → s ≠ "" →
            mkProjectManagement g app
              = Except.ok { projectId := s, resourceName := "projects/" ++ s }) := by
  refine ⟨fun h => ?_, fun h => ⟨fun h2 => ?_, fun s hs hne => ?_⟩⟩
  · simp [mkProjectManagement, h]
  · simp [mkProjectManagement, h, h2]
  · have hne3 : (s != "") = true := by simpa using hne
    simp [mkProjectManagement, h, hs, isNonEmptyString, hne3, JsValue.asString]

/-- Witness for C3: a null argument fails with invalid-argument, an app whose
options carry no project ID fails with invalid-project-id, and an app with
options.projectId = demo succeeds storing projectId demo and resourceName
projects/demo. -/
theorem mkProjectManagement_spec_witness :
    mkProjectManagement exampleGetProjectId JsValue.null
      = Except.error (PMError.invalidArgument invalidAppMsg)
    ∧ mkProjectManagement exampleGetProjectId exampleNoIdApp
      = Except.error (PMError.invalidProjectId noProjectIdMsg)
    ∧ mkProjectManagement exampleGetProjectId exampleGoodApp
      = Except.ok { projectId := "demo", resourceName := "projects/" ++ "demo" } :=
  ⟨(mkProjectManagement_spec exampleGetProjectId JsValue.null).1 (by decide),
   ((mkProjectManagement_spec exampleGetProjectId exampleNoIdApp).2 (by decide)).1 (by decide),
   ((mkProjectManagement_spec exampleGetProjectId exampleGoodApp).2 (by decide)).2
     "demo" rfl (by decide)⟩

/-- C4: on a listAppMetadata() response with a non-null object carrying an apps
array whose entries all pass the per-entry assertions, the call succeeds as a
whole, and every entry whose platform is a non-empty string naming none of the
AppPlatform members yields metadata with platform PLATFORM_UNKNOWN — the
unrecognized value never raises an error. -/
theorem unknown_platform_degrades (pid : String) (rd : JsValue) (xs : List JsValue)
    (hobj : isNonNullObject rd = true) (happs : rd.get "apps" = JsValue.arr xs)
    (hvalid : xs.all metadataEntryValid = true) :
    transformResponseToAppMetadata pid rd = Except.ok (xs.map (mkAppMetadata pid))
    ∧ ∀ e ∈ xs, ∀ s, e.get "platform" = JsValue.str s →
        s ≠ "PLATFORM_UNKNOWN" → s ≠ "ANDROID" → s ≠ "IOS" →
        (mkAppMetadata pid e).platform = AppPlatform.PLATFORM_UNKNOWN := by
  constructor
  · rw [transform_arr pid rd xs hobj happs]
    exact transformEntries_all_valid pid rd xs hvalid
  · intro e he s hs h1 h2 h3
    simp [mkAppMetadata, hs, JsValue.asString, lookupAppPlatform, h1, h2, h3]

/-- Witness for C4: a response whose single entry has platform WEB succeeds
and produces PLATFORM_UNKNOWN. -/
theorem unknown_platform_degrades_witness :
    transformResponseToAppMetadata "demo" exampleWebResponse
      = Except.ok [mkAppMetadata "demo" exampleWebEntry]
    ∧ (mkAppMetadata "demo" exampleWebEntry).platform = AppPlatform.PLATFORM_UNKNOWN := by
  have h := unknown_platform_degrades "demo" exampleWebResponse [exampleWebEntry]
    (by decide) rfl (by decide)
  exact ⟨h.1, h.2 exampleWebEntry (by simp) "WEB" rfl (by decide) (by decide) (by decide)⟩

/-- C5: deleting a SHA certificate whose resourceName is absent or empty fails
with the invalid-argument error stating the certificate lacks a resourceName,
and the request handler is invoked zero times. -/
theorem deleteShaCertificate_requires_resourceName (cert : ShaCertificate)
    (h : cert.resourceName = none ∨ cert.resourceName = some "") :
    deleteShaCertificate cert
      = { result := Except.error (PMError.invalidArgument certNoResourceNameMsg)
          calls := 0 } := by
  rcases h with h | h <;> simp [deleteShaCertificate, h]

/-- Witness for C5 at a certificate that was never fetched from the server. -/
theorem deleteShaCertificate_requires_resourceName_witness :
    deleteShaCertificate
        { shaHash := "aaaaccccaaaaccccaaaaccccaaaaccccaaaaccccaaaaccccaaaaccccaaaacccc"
          resourceName := none }
      = { result := Except.error (PMError.invalidArgument certNoResourceNameMsg)
          calls := 0 } :=
  deleteShaCertificate_requires_resourceName
    { shaHash := "aaaaccccaaaaccccaaaaccccaaaaccccaaaaccccaaaaccccaaaaccccaaaacccc"
      resourceName := none }
    (Or.inl rfl)

/-- Counterexample to C6: the response with apps = [null] has an entry with no
appId field at all, yet listAppMetadata does not fail with a classified
invalid-server-response error: evaluating the per-entry property access on the
null entry raises a raw TypeError, so the claimed classification is false at
this input. -/
theorem listAppMetadata_null_entry_typeerror :
    transformResponseToAppMetadata "demo" (JsValue.obj [("apps", JsValue.arr [JsValue.null])])
      = Except.error (PMError.typeError typeErrorMsg)
    ∧ isInvalidServerResponseError (PMError.typeError typeErrorMsg) = false :=
  ⟨rfl, rfl⟩

/-- C6 amended: for every listAppMetadata() response that is a non-null object
with an apps array whose entries all support property reads (none is null or
undefined), if some entry lacks a non-empty string appId or a non-empty string
platform then the call fails with a classified invalid-server-response error
carrying the listAppMetadata() caller-context label in its message and the raw
response (a missing platform field being a hard validation failure, not
degraded to PLATFORM_UNKNOWN); a null or undefined entry instead fails the
call with an unclassified TypeError. -/
theorem invalid_entry_classified_error (pid : String) (rd : JsValue) (xs : List JsValue)
    (hobj : isNonNullObject rd = true) (happs : rd.get "apps" = JsValue.arr xs)
    (hacc : xs.all JsValue.accessible = true)
    (hbad : xs.all metadataEntryValid = false) :
    ∃ m, transformResponseToAppMetadata pid rd
        = Except.error (PMError.invalidServerResponse m rd)
      ∧ (m = appsAppIdMsg "listAppMetadata()" ∨ m = appsPlatformMsg "listAppMetadata()") := by
  obtain ⟨m, hm, hd⟩ := transformEntries_invalid pid rd xs hacc hbad
  exact ⟨m, by rw [transform_arr pid rd xs hobj happs]; exact hm, hd⟩

/-- Witness for the amended C6: a response whose single object entry has an
appId but no platform fails with a classified error carrying the response. -/
theorem invalid_entry_classified_error_witness :
    ∃ m, transformResponseToAppMetadata "demo"
        (JsValue.obj [("apps", JsValue.arr [JsValue.obj [("appId", JsValue.str "b1")]])])
        = Except.error (PMError.invalidServerResponse m
            (JsValue.obj [("apps", JsValue.arr [JsValue.obj [("appId", JsValue.str "b1")]])]))
      ∧ (m = appsAppIdMsg "listAppMetadata()" ∨ m = appsPlatformMsg "listAppMetadata()") :=
  invalid_entry_classified_error "demo"
    (JsValue.obj [("apps", JsValue.arr [JsValue.obj [("appId", JsValue.str "b1")]])])
    [JsValue.obj [("appId", JsValue.str "b1")]] (by decide) rfl (by decide) (by decide)

/-- C7: processing a createAndroidApp or createIosApp response (both share the
shape embedded by createAppFromResponse, instantiated by
createAndroidAppResponse and createIosAppResponse): a non-null object response
whose appId is a non-empty string yields a handle carrying exactly that appId;
a null, non-object or appId-less response yields a classified
invalid-server-response error carrying the raw response. The processing is the
then-callback of the request, so the failure surfaces only after the round
trip completes. -/
theorem createApp_response_validation (cn : String) (rd : JsValue) :
    (∀ s, isNonNullObject rd = true → rd.get "appId" = JsValue.str s → s ≠ "" →
      createAppFromResponse cn rd = Except.ok s)
    ∧ ((isNonNullObject rd = false ∨ isNonEmptyString (rd.get "appId") = false) →
        ∃ m, createAppFromResponse cn rd = Except.error (PMError.invalidServerResponse m rd)) := by
  constructor
  · intro s h1 h2 h3
    have h4 : (s != "") = true := by simpa using h3
    simp [createAppFromResponse, h1, h2, isNonEmptyString, h4, JsValue.asString]
  · intro h
    rcases h with h | h
    · exact ⟨createNonNullMsg cn, by simp [createAppFromResponse, h]⟩
    · by_cases h1 : isNonNullObject rd = true
      · exact ⟨createAppIdMsg cn, by simp [createAppFromResponse, h1, h]⟩
      · rw [Bool.not_eq_true] at h1
        exact ⟨createNonNullMsg cn, by simp [createAppFromResponse, h1]⟩

/-- Witness for C7: a create response carrying appId app-1 yields that handle,
and a null create response yields a classified error carrying it. -/
theorem createApp_response_validation_witness :
    createAndroidAppResponse (JsValue.obj [("appId", JsValue.str "app-1")])
      = Except.ok "app-1"
    ∧ ∃ m, createIosAppResponse JsValue.null
        = Except.error (PMError.invalidServerResponse m JsValue.null) :=
  ⟨(createApp_response_validation "createAndroidApp()"
      (JsValue.obj [("appId", JsValue.str "app-1")])).1 "app-1" (by decide) rfl (by decide),
   (createApp_response_validation "createIosApp()" JsValue.null).2 (Or.inl (by decide))⟩

/-- C8: a response that is a valid non-null object but has no apps field at
all yields an empty success rather than a validation error: listAppMetadata
returns the empty array, and an iteration pull on such a response yields a
non-done empty batch. -/
theorem missing_apps_field_empty_result (pid cn : String) (rd : JsValue)
    (handler : JsValue → JsValue) (st : IterState)
    (hobj : isNonNullObject rd = true) (hnf : JsValue.hasField rd "apps" = false)
    (hf : st.fetching = true) (hh : handler st.nextPageToken = rd) :
    transformResponseToAppMetadata pid rd = Except.ok []
    ∧ (iterNext handler cn st).result = Except.ok (false, []) := by
  have hget := hasField_false_get rd "apps" hnf
  have htr : JsValue.truthy (rd.get "apps") = false := by rw [hget]; rfl
  constructor
  · exact transform_no_apps pid rd hobj htr
  · have hv : pageValid rd = true := by
      simp [pageValid, hobj, htr, pageEntries, hget]
      exact Or.inl rfl
    have hstep := iterNext_valid handler cn st hf (by rw [hh]; exact hv)
    rw [hstep]
    simp [pageApps, pageEntries, hh, hget]

/-- Witness for C8 at a response carrying only a nextPageToken. -/
theorem missing_apps_field_empty_result_witness :
    transformResponseToAppMetadata "demo" (JsValue.obj [("nextPageToken", JsValue.str "t2")])
      = Except.ok []
    ∧ (iterNext (fun _ => JsValue.obj [("nextPageToken", JsValue.str "t2")])
        "iterateAndroidApps()" initIterState).result = Except.ok (false, []) :=
  missing_apps_field_empty_result "demo" "iterateAndroidApps()"
    (JsValue.obj [("nextPageToken", JsValue.str "t2")])
    (fun _ => JsValue.obj [("nextPageToken", JsValue.str "t2")]) initIterState
    (by decide) (by decide) rfl rfl

/-- C9: when a pull's response passes the shape assertion but a per-entry
appId assertion fails, the error propagates with the iterator state already
advanced: the stored cursor equals the failed response's nextPageToken and the
fetching flag its truthiness (the handler having been called once), so a
subsequent next() does not re-fetch the failed page; in particular when that
response carried no token, the next pull reports completion with no network
call. Errors during a pull are not atomic with respect to iterator state. -/
theorem pull_error_state_advanced (handler : JsValue → JsValue) (cn : String)
    (st : IterState) (xs : List JsValue)
    (hf : st.fetching = true)
    (hobj : isNonNullObject (handler st.nextPageToken) = true)
    (happs : (handler st.nextPageToken).get "apps" = JsValue.arr xs)
    (hbad : xs.all entryValidForIter = false) :
    ∃ err,
      iterNext handler cn st =
        { result := Except.error err
          state := { fetching := JsValue.truthy (pageTok (handler st.nextPageToken))
                     nextPageToken := pageTok (handler st.nextPageToken) }
          calls := 1 }
      ∧ (JsValue.truthy (pageTok (handler st.nextPageToken)) = false →
          iterNext handler cn (iterNext handler cn st).state
            = { result := Except.ok (true, [])
                state := (iterNext handler cn st).state
                calls := 0 }) := by
  obtain ⟨err, herr⟩ := listEntriesApps_invalid (handler st.nextPageToken) cn xs hbad
  have hassert := assertList_ok (handler st.nextPageToken) cn hobj (by rw [happs]; simp [isArray])
  have hentries : pageEntries (handler st.nextPageToken) = xs := by
    simp [pageEntries, happs]
  have hstep : iterNext handler cn st =
      { result := Except.error err
        state := { fetching := JsValue.truthy (pageTok (handler st.nextPageToken))
                   nextPageToken := pageTok (handler st.nextPageToken) }
        calls := 1 } := by
    unfold iterNext
    rw [hf]
    simp only [Bool.true_eq_false, if_false]
    rw [hassert, hentries, herr]
    simp [pageTok]
  refine ⟨err, hstep, fun hdone => ?_⟩
  rw [hstep]
  exact iterNext_done handler cn
    { fetching := JsValue.truthy (pageTok (handler st.nextPageToken))
      nextPageToken := pageTok (handler st.nextPageToken) } hdone

/-- Witness for C9 at a response whose single entry lacks an appId and which
carries no continuation token: the pull errors with the state advanced to the
exhausted configuration, and the following pull reports completion with no
handler call. -/
theorem pull_error_state_advanced_witness :
    ∃ err,
      iterNext (fun _ => exampleBadPage) "iterateIosApps()" initIterState =
        { result := Except.error err
          state := { fetching := JsValue.truthy (pageTok exampleBadPage)
                     nextPageToken := pageTok exampleBadPage }
          calls := 1 }
      ∧ iterNext (fun _ => exampleBadPage) "iterateIosApps()"
            (iterNext (fun _ => exampleBadPage) "iterateIosApps()" initIterState).state
          = { result := Except.ok (true, [])
              state := (iterNext (fun _ => exampleBadPage) "iterateIosApps()" initIterState).state
              calls := 0 } := by
  obtain ⟨err, h1, h2⟩ := pull_error_state_advanced (fun _ => exampleBadPage)
    "iterateIosApps()" initIterState [JsValue.obj []] rfl (by decide) rfl (by decide)
  exact ⟨err, h1, h2 (by decide)⟩

/-- C10: transformResponseToAppMetadata copies each entry's name field into
resourceName without any validation: on a response whose entries all pass the
appId and platform assertions the call succeeds, and an entry carrying no name
field yields metadata whose resourceName is undefined, the Response Validator
contract notwithstanding. -/
theorem resourceName_copied_unvalidated (pid : String) (rd : JsValue) (xs : List JsValue)
    (hobj : isNonNullObject rd = true) (happs : rd.get "apps" = JsValue.arr xs)
    (hvalid : xs.all metadataEntryValid = true) :
    transformResponseToAppMetadata pid rd = Except.ok (xs.map (mkAppMetadata pid))
    ∧ ∀ e ∈ xs, JsValue.hasField e "name" = false →
        (mkAppMetadata pid e).resourceName = JsValue.undefined := by
  constructor
  · rw [transform_arr pid rd xs hobj happs]
    exact transformEntries_all_valid pid rd xs hvalid
  · intro e he hn
    simp [mkAppMetadata, hasField_false_get e "name" hn]

/-- Witness for C10: a valid entry with no name field produces metadata whose
resourceName is undefined while the call succeeds. -/
theorem resourceName_copied_unvalidated_witness :
    transformResponseToAppMetadata "demo" exampleNoNameResponse
      = Except.ok [mkAppMetadata "demo" exampleNoNameEntry]
    ∧ (mkAppMetadata "demo" exampleNoNameEntry).resourceName = JsValue.undefined := by
  have h := resourceName_copied_unvalidated "demo" exampleNoNameResponse
    [exampleNoNameEntry] (by decide) rfl (by decide)
  exact ⟨h.1, h.2 exampleNoNameEntry (by simp) (by decide)⟩
